import Mathlib

/-!
Verification of the AutoCAD CPW script generator (`AutoScripter.py`).

The Python class `AutoScripter` emits AutoCAD drawing commands (polylines,
arcs, lines) for coplanar-waveguide geometry and tracks a pen state
(`prevEnd`, `prevAngleRad`).  We embed the geometry engine shallowly:

* points are pairs of reals, commands are an inductive type recording the
  coordinates the Python code writes to the script file, in order;
* each shape-emitting method becomes a pure function from its arguments
  (plus the tracked pen state where the method reads it) to
  `Except Err (List Cmd × PenState)`;
* Python runtime failures the code can actually hit (float division by
  zero, use of a never-assigned local variable) are modelled as explicit
  error values; the `Err` type also carries the domain-error names used by
  the specification so that spec-level statements about them can be made.
-/

noncomputable section

namespace AutoScripter

/-- A 2D point, as the pair of floats the Python code writes. -/
abbrev Point : Type := ℝ × ℝ

/-- The tracked pen state: `self.prevEnd` and `self.prevAngleRad`. -/
@[ext]
structure PenState where
  prevEnd : Point
  prevAngleRad : ℝ

/-- Drawing commands, recording exactly the coordinates written to the
script.  `pline pts` is `PLINE` with the given vertices closed by `c`;
`arc c a b` is `ARC C` with center `c`, start point `a` and end point `b`
(AutoCAD sweeps counterclockwise from `a` to `b`); `line pts` is `LINE`
through the listed points. -/
inductive Cmd where
  | pline (pts : List Point)
  | arc (center a b : Point)
  | line (pts : List Point)

/-- Error outcomes.  `degenerateSegment`, `degenerateBend`,
`invalidMeanderLength`, `invalidCrossSection` are modelled from the spec:
the specification names these domain errors, but the Python code defines
and raises none of them.  `zeroDivisionError` and `unboundLocalError` are
the Python runtime errors the code actually raises
(`float division by zero` in `getDisplacementAndAngle`, and reading the
never-assigned locals `x`, `y` in `addCPWAngBend` when `angle == 0`).
`loopFuelExhausted` is a modelling artifact for the `while` loop of
`CPWMeander`: it is returned only when the iteration bound chosen in
`CPWMeander` is insufficient, which happens only in regimes where the
Python loop would not terminate at all. -/
inductive Err where
  | degenerateSegment
  | degenerateBend
  | invalidMeanderLength
  | invalidCrossSection
  | zeroDivisionError
  | unboundLocalError
  | loopFuelExhausted
deriving DecidableEq

/-- `rotatePoint(theta, x, y, pivot)`: rotate `(x, y)` by `theta` about
`pivot` (counterclockwise). -/
def rotatePoint (theta x y : ℝ) (pivot : Point) : Point :=
  (Real.cos theta * (x - pivot.1) - Real.sin theta * (y - pivot.2) + pivot.1,
   Real.sin theta * (x - pivot.1) + Real.cos theta * (y - pivot.2) + pivot.2)

/-- `getDisplacementAndAngle(start, end)`.  The Python code computes
`disp = (dx**2 + dy**2)**0.5` and resolves the angle with a chain of
branches around `math.atan(dy/dx)`.  In the final branch Python evaluates
`dy/dx` even when `dx == 0` (which there forces `dy == 0`), raising
`ZeroDivisionError`; we return that error explicitly. -/
def getDisplacementAndAngle (start stop : Point) : Except Err (ℝ × ℝ) :=
  let dx := stop.1 - start.1
  let dy := stop.2 - start.2
  let disp := Real.sqrt (dx ^ 2 + dy ^ 2)
  if dx = 0 ∧ 0 < dy then .ok (disp, Real.pi / 2)
  else if dx = 0 ∧ dy < 0 then .ok (disp, -(Real.pi / 2))
  else if dx < 0 then .ok (disp, Real.arctan (dy / dx) + Real.pi)
  else if dx = 0 then .error .zeroDivisionError
  else .ok (disp, Real.arctan (dy / dx))

/-- `addCPWStraightSrtEnd(width, gap, start, end)`: two closed 4-vertex
polylines (the two gap regions flanking the conductor), every vertex
written through `rotateAndWritePoint(theta, ·, ·, start)`; afterwards the
pen state becomes `(end, theta)`. -/
def addCPWStraightSrtEnd (width gap : ℝ) (start stop : Point) :
    Except Err (List Cmd × PenState) :=
  match getDisplacementAndAngle start stop with
  | .error e => .error e
  | .ok (disp, theta) =>
    .ok ([Cmd.pline
            [rotatePoint theta start.1 (start.2 - width / 2) start,
             rotatePoint theta (start.1 + disp) (start.2 - width / 2) start,
             rotatePoint theta (start.1 + disp) (start.2 - width / 2 - gap) start,
             rotatePoint theta start.1 (start.2 - width / 2 - gap) start],
          Cmd.pline
            [rotatePoint theta start.1 (start.2 + width / 2) start,
             rotatePoint theta (start.1 + disp) (start.2 + width / 2) start,
             rotatePoint theta (start.1 + disp) (start.2 + width / 2 + gap) start,
             rotatePoint theta start.1 (start.2 + width / 2 + gap) start]],
         ⟨stop, theta⟩)

/-- `addCPWStraightLenAng(width, gap, length, start, angleRad)`:
the polar-form wrapper around `addCPWStraightSrtEnd`. -/
def addCPWStraightLenAng (width gap length : ℝ) (start : Point) (angleRad : ℝ) :
    Except Err (List Cmd × PenState) :=
  addCPWStraightSrtEnd width gap start
    (start.1 + length * Real.cos angleRad, start.2 + length * Real.sin angleRad)

/-- `addCPWRamp(widthStart, gapStart, widthEnd, gapEnd, start, end)`:
same two-polyline structure as the straight segment with independent
start/end cross-sections. -/
def addCPWRamp (widthStart gapStart widthEnd gapEnd : ℝ) (start stop : Point) :
    Except Err (List Cmd × PenState) :=
  match getDisplacementAndAngle start stop with
  | .error e => .error e
  | .ok (disp, theta) =>
    .ok ([Cmd.pline
            [rotatePoint theta start.1 (start.2 - widthStart / 2) start,
             rotatePoint theta (start.1 + disp) (start.2 - widthEnd / 2) start,
             rotatePoint theta (start.1 + disp) (start.2 - widthEnd / 2 - gapEnd) start,
             rotatePoint theta start.1 (start.2 - widthStart / 2 - gapStart) start],
          Cmd.pline
            [rotatePoint theta start.1 (start.2 + widthStart / 2) start,
             rotatePoint theta (start.1 + disp) (start.2 + widthEnd / 2) start,
             rotatePoint theta (start.1 + disp) (start.2 + widthEnd / 2 + gapEnd) start,
             rotatePoint theta start.1 (start.2 + widthStart / 2 + gapStart) start]],
         ⟨stop, theta⟩)

/-- One iteration (`i = 0` gives `sign = 1`, `i = 1` gives `sign = -1`) of
the loop body of `CPWAngBendHelperPositive`. -/
def posIter (center start : Point) (radius width gap angleRad startAngleRad sign : ℝ) :
    List Cmd :=
  let rw2 := radius + sign * width / 2
  let rw2g := radius + sign * width / 2 + sign * gap
  let arcEnd1 : Point :=
    (center.1 + rw2 * Real.sin angleRad, center.2 - rw2 * Real.cos angleRad)
  let arcEnd2 : Point :=
    (center.1 + rw2g * Real.sin angleRad, center.2 - rw2g * Real.cos angleRad)
  [Cmd.arc (rotatePoint startAngleRad center.1 center.2 start)
      (rotatePoint startAngleRad center.1 (center.2 - rw2) start)
      (rotatePoint startAngleRad arcEnd1.1 arcEnd1.2 start),
   Cmd.line
      [rotatePoint startAngleRad arcEnd1.1 arcEnd1.2 start,
       rotatePoint startAngleRad (arcEnd1.1 + sign * gap * Real.sin angleRad)
         (arcEnd1.2 - sign * gap * Real.cos angleRad) start],
   Cmd.arc (rotatePoint startAngleRad center.1 center.2 start)
      (rotatePoint startAngleRad center.1 (center.2 - rw2g) start)
      (rotatePoint startAngleRad arcEnd2.1 arcEnd2.2 start),
   Cmd.line
      [rotatePoint startAngleRad center.1 (center.2 - rw2) start,
       rotatePoint startAngleRad center.1 (center.2 - rw2g) start]]

/-- `CPWAngBendHelperPositive`: the `range(0, 2)` loop unrolled. -/
def CPWAngBendHelperPositive (center start : Point)
    (radius width gap angleRad startAngleRad : ℝ) : List Cmd :=
  posIter center start radius width gap angleRad startAngleRad 1 ++
    posIter center start radius width gap angleRad startAngleRad (-1)

/-- One iteration of the loop body of `CPWAngBendHelperNegative`, taking
the value the mutable `angleRad` has during that iteration (the Python
loop executes `angleRad = -angleRad` at the top of every iteration). -/
def negIter (center start : Point) (radius width gap angleRad startAngleRad sign : ℝ) :
    List Cmd :=
  let rw2 := radius + sign * width / 2
  let rw2g := radius + sign * width / 2 + sign * gap
  let arcEnd1 : Point :=
    (center.1 + rw2 * Real.sin (sign * angleRad),
     center.2 + rw2 * Real.cos (sign * angleRad))
  let arcEnd2 : Point :=
    (center.1 + rw2g * Real.sin (sign * angleRad),
     center.2 + rw2g * Real.cos (sign * angleRad))
  [Cmd.arc (rotatePoint startAngleRad center.1 center.2 start)
      (rotatePoint startAngleRad arcEnd1.1 arcEnd1.2 start)
      (rotatePoint startAngleRad center.1 (center.2 + rw2) start),
   Cmd.line
      [rotatePoint startAngleRad center.1 (center.2 + rw2) start,
       rotatePoint startAngleRad center.1 (center.2 + rw2g) start],
   Cmd.arc (rotatePoint startAngleRad center.1 center.2 start)
      (rotatePoint startAngleRad arcEnd2.1 arcEnd2.2 start)
      (rotatePoint startAngleRad center.1 (center.2 + rw2g) start),
   Cmd.line
      [rotatePoint startAngleRad arcEnd2.1 arcEnd2.2 start,
       rotatePoint startAngleRad arcEnd2.1 arcEnd2.2 start,
       rotatePoint startAngleRad (arcEnd2.1 - sign * gap * Real.sin (sign * angleRad))
         (arcEnd2.2 - sign * gap * Real.cos (sign * angleRad)) start]]

/-- `CPWAngBendHelperNegative`: the loop unrolled.  At iteration `i = 0`
the mutable `angleRad` holds `-angleRad` (first flip) with `sign = 1`; at
`i = 1` it holds `-(-angleRad)` (second flip) with `sign = -1`. -/
def CPWAngBendHelperNegative (center start : Point)
    (radius width gap angleRad startAngleRad : ℝ) : List Cmd :=
  negIter center start radius width gap (-angleRad) startAngleRad 1 ++
    negIter center start radius width gap (- -angleRad) startAngleRad (-1)

/-- `addCPWAngBend(width, gap, radius, angle, start, startAngleRad)`.
When `angle == 0` neither branch of the Python `if`/`elif` runs, so the
assignment `self.prevEnd = self.rotatePoint(startAngleRad, x, y, start)`
reads the never-assigned locals `x`, `y` and raises `UnboundLocalError`;
no drawing command has been written for the shape at that point. -/
def addCPWAngBend (width gap radius angle : ℝ) (start : Point) (startAngleRad : ℝ) :
    Except Err (List Cmd × PenState) :=
  let angleRad := Real.pi * angle / 180
  if 0 < angle then
    let center : Point := (start.1, start.2 + radius)
    let cmds := CPWAngBendHelperPositive center start radius width gap angleRad startAngleRad
    let x := start.1 + radius * Real.sin angleRad
    let y := start.2 + radius - radius * Real.cos angleRad
    .ok (cmds, ⟨rotatePoint startAngleRad x y start, startAngleRad + angleRad⟩)
  else if angle < 0 then
    let center : Point := (start.1, start.2 - radius)
    let cmds := CPWAngBendHelperNegative center start radius width gap angleRad startAngleRad
    let x := start.1 - radius * Real.sin angleRad
    let y := start.2 - radius + radius * Real.cos angleRad
    .ok (cmds, ⟨rotatePoint startAngleRad x y start, startAngleRad + angleRad⟩)
  else
    .error .unboundLocalError

/-- Python's float modulo: `a % b = a - b * floor(a / b)` (for `b > 0`). -/
def pymod (a b : ℝ) : ℝ := a - b * (⌊a / b⌋ : ℝ)

/-- The `while` loop of `CPWMeander`, with an explicit fuel parameter
(the Python loop has no bound; `CPWMeander` passes a fuel that exceeds the
iteration count whenever the loop terminates).  Returns the emitted
commands, the pen state, the final `turn`, and the final `lengthSoFar`. -/
def meanderLoop : Nat → ℝ → ℝ → ℝ → ℝ → ℝ → ℝ → ℝ → PenState →
    Except Err (List Cmd × PenState × ℝ × ℝ)
  | 0, _, _, _, _, _, _, _, _ => .error .loopFuelExhausted
  | Nat.succ fuel, width, gap, lengthTotal, radius, straightLength, turn, lengthSoFar, st =>
    if lengthTotal - (radius * Real.pi + straightLength) > lengthSoFar then
      match addCPWStraightLenAng width gap straightLength st.prevEnd st.prevAngleRad with
      | .error e => .error e
      | .ok (c1, st1) =>
        match addCPWAngBend width gap radius (turn * 180) st1.prevEnd st1.prevAngleRad with
        | .error e => .error e
        | .ok (c2, st2) =>
          match meanderLoop fuel width gap lengthTotal radius straightLength (-turn)
              (lengthSoFar + straightLength + radius * Real.pi) st2 with
          | .error e => .error e
          | .ok (cs, st3, turn3, ls3) => .ok (c1 ++ c2 ++ cs, st3, turn3, ls3)
    else .ok ([], st, turn, lengthSoFar)

/-- `CPWMeander(width, gap, lengthTotal, radius, straightLength,
startPhaseRad, start, startAngleRad)`.  Note that the Python body never
reads its `start` and `startAngleRad` parameters: every sub-call uses
`self.prevEnd` and `self.prevAngleRad` (modelled by `st`). -/
def CPWMeander (width gap lengthTotal radius straightLength startPhaseRad : ℝ)
    (start : Point) (startAngleRad : ℝ) (st : PenState) :
    Except Err (List Cmd × PenState) :=
  let startPhase := pymod startPhaseRad (2 * Real.pi)
  let first : Except Err (List Cmd × PenState × ℝ × ℝ) :=
    if startPhase = 0 then
      match addCPWAngBend width gap radius (-180) st.prevEnd st.prevAngleRad with
      | .error e => .error e
      | .ok (c, st1) => .ok (c, st1, radius * Real.pi, 1)
    else if startPhase = Real.pi then
      match addCPWAngBend width gap radius 180 st.prevEnd st.prevAngleRad with
      | .error e => .error e
      | .ok (c, st1) => .ok (c, st1, radius * Real.pi, -1)
    else
      match addCPWAngBend width gap radius (180 * (startPhase - Real.pi) / Real.pi)
          st.prevEnd st.prevAngleRad with
      | .error e => .error e
      | .ok (c, st1) =>
        .ok (c, st1, |radius * (startPhase - Real.pi)|,
          if startPhase < Real.pi ∧ 0 < startPhase then 1 else -1)
  match first with
  | .error e => .error e
  | .ok (c0, st1, lengthSoFar, turn) =>
    let fuel := Nat.ceil ((lengthTotal - (radius * Real.pi + straightLength) - lengthSoFar)
      / (straightLength + radius * Real.pi)) + 1
    match meanderLoop fuel width gap lengthTotal radius straightLength turn lengthSoFar st1 with
    | .error e => .error e
    | .ok (c1, st2, turn2, ls2) =>
      if lengthTotal - ls2 < straightLength then
        match addCPWStraightLenAng width gap (lengthTotal - ls2) st2.prevEnd st2.prevAngleRad with
        | .error e => .error e
        | .ok (c2, st3) => .ok (c0 ++ c1 ++ c2, st3)
      else
        match addCPWStraightLenAng width gap straightLength st2.prevEnd st2.prevAngleRad with
        | .error e => .error e
        | .ok (c2, st3) =>
          let lastAngle := 180 * (lengthTotal - ls2 - straightLength) / (Real.pi * radius)
          match addCPWAngBend width gap radius (turn2 * lastAngle) st3.prevEnd st3.prevAngleRad with
          | .error e => .error e
          | .ok (c3, st4) => .ok (c0 ++ c1 ++ c2 ++ c3, st4)

/-! ### Observation functions and spec-side definitions -/

/-- The pen state resulting from a shape-emitting call, when it succeeds. -/
def penAfter (r : Except Err (List Cmd × PenState)) : Option PenState :=
  match r with
  | .ok (_, st) => some st
  | .error _ => none

/-- The commands emitted by a shape-emitting call (empty on failure). -/
def cmdsAfter (r : Except Err (List Cmd × PenState)) : List Cmd :=
  match r with
  | .ok (cs, _) => cs
  | .error _ => []

/-- The arc commands of a command list, in emission order, as
(center, start point, end point) triples. -/
def arcsOf (cs : List Cmd) : List (Point × Point × Point) :=
  cs.filterMap fun c =>
    match c with
    | Cmd.arc ctr a b => some (ctr, a, b)
    | _ => none

/-- Consecutive pairs of a vertex list: the straight strokes of a
`LINE`/`PLINE` command. -/
def consecPairs : List Point → List (Point × Point)
  | a :: b :: rest => (a, b) :: consecPairs (b :: rest)
  | _ => []

/-- The straight strokes drawn by one command: consecutive vertex pairs of
a `line`, plus the closing stroke for a closed `pline`; arcs contribute
none. -/
def cmdSegs : Cmd → List (Point × Point)
  | Cmd.line ps => consecPairs ps
  | Cmd.pline ps =>
    consecPairs ps ++
      (match ps with
       | [] => []
       | h :: t => [((h :: t).getLast (List.cons_ne_nil h t), h)])
  | Cmd.arc _ _ _ => []

/-- The closed segment of the plane between two points. -/
def segSet (a b : Point) : Set Point :=
  {p | ∃ t : ℝ, 0 ≤ t ∧ t ≤ 1 ∧
    p = (a.1 + t * (b.1 - a.1), a.2 + t * (b.2 - a.2))}

/-- The set of plane points covered by the straight strokes of a command
list. -/
def lineSegPts (cs : List Cmd) : Set Point :=
  {p | ∃ pr ∈ cs.flatMap cmdSegs, p ∈ segSet pr.1 pr.2}

/-- Reflection of the plane across the line through `s` with direction
angle `α` (the "start pose heading line" of the spec). -/
def reflectAcross (s : Point) (α : ℝ) (p : Point) : Point :=
  (s.1 + Real.cos (2 * α) * (p.1 - s.1) + Real.sin (2 * α) * (p.2 - s.2),
   s.2 + Real.sin (2 * α) * (p.1 - s.1) - Real.cos (2 * α) * (p.2 - s.2))

/-- The mirror image of an arc primitive under `reflectAcross s α`.
Reflection reverses orientation, so the counterclockwise arc from `a` to
`b` about `ctr` maps to the counterclockwise arc from the image of `b` to
the image of `a` about the image of `ctr`. -/
def mirrorArc (s : Point) (α : ℝ) (t : Point × Point × Point) :
    Point × Point × Point :=
  (reflectAcross s α t.1, reflectAcross s α t.2.2, reflectAcross s α t.2.1)

/-- Modelled from the spec: the bend center, offset perpendicular to the
start heading by `radius`, on the side determined by the sign of the turn
angle (in the local frame, before rotation by the start heading). -/
def specBendCenter (radius angle : ℝ) (start : Point) : Point :=
  if 0 < angle then (start.1, start.2 + radius) else (start.1, start.2 - radius)

/-- Modelled from the spec: the geometric end point of the bend in the
local frame — the start point rotated about the bend center by the turn
angle in radians. -/
def specBendLocalEnd (radius angle : ℝ) (start : Point) : Point :=
  rotatePoint (Real.pi * angle / 180) start.1 start.2 (specBendCenter radius angle start)

/-- The path length consumed by the mandatory initial bend of
`CPWMeander`, as accumulated into `lengthSoFar` by its first-bend
branches. -/
def initialBendLength (radius startPhaseRad : ℝ) : ℝ :=
  let startPhase := pymod startPhaseRad (2 * Real.pi)
  if startPhase = 0 then radius * Real.pi
  else if startPhase = Real.pi then radius * Real.pi
  else |radius * (startPhase - Real.pi)|

/-- Two chained bends: the second starts from the pen state left by the
first (as the orchestration code does with `a.prevEnd, a.prevAngleRad`). -/
def bendThenBend (width gap radius angle1 angle2 : ℝ) (start : Point)
    (startAngleRad : ℝ) : Except Err (List Cmd × PenState) :=
  match addCPWAngBend width gap radius angle1 start startAngleRad with
  | .error e => .error e
  | .ok (c1, st1) =>
    match addCPWAngBend width gap radius angle2 st1.prevEnd st1.prevAngleRad with
    | .error e => .error e
    | .ok (c2, st2) => .ok (c1 ++ c2, st2)

/-! ### Helper lemmas -/

/-- On distinct points, `getDisplacementAndAngle` succeeds and returns the
Euclidean distance together with an angle whose cosine/sine, scaled by the
distance, recover the displacement vector (i.e. the returned angle is a
valid heading for `start → stop`, though not always the `(-π, π]`
representative). -/
lemma getDisplacementAndAngle_ok_spec (s e : Point) (h : s ≠ e) :
    ∃ θ, getDisplacementAndAngle s e =
        .ok (Real.sqrt ((e.1 - s.1) ^ 2 + (e.2 - s.2) ^ 2), θ) ∧
      Real.cos θ * Real.sqrt ((e.1 - s.1) ^ 2 + (e.2 - s.2) ^ 2) = e.1 - s.1 ∧
      Real.sin θ * Real.sqrt ((e.1 - s.1) ^ 2 + (e.2 - s.2) ^ 2) = e.2 - s.2 := by
  set dx := e.1 - s.1 with hdx
  set dy := e.2 - s.2 with hdy
  have hne : ¬(dx = 0 ∧ dy = 0) := by
    rintro ⟨h1, h2⟩
    exact h (Prod.ext (by linarith) (by linarith)).symm
  by_cases h1 : dx = 0 ∧ 0 < dy
  · refine ⟨Real.pi / 2, ?_, ?_, ?_⟩
    · simp only [getDisplacementAndAngle, ← hdx, ← hdy]
      rw [if_pos h1]
    · rw [Real.cos_pi_div_two, h1.1]
      ring
    · rw [Real.sin_pi_div_two, h1.1]
      simp [Real.sqrt_sq_eq_abs, abs_of_pos h1.2]
  · by_cases h2 : dx = 0 ∧ dy < 0
    · refine ⟨-(Real.pi / 2), ?_, ?_, ?_⟩
      · simp only [getDisplacementAndAngle, ← hdx, ← hdy]
        rw [if_neg h1, if_pos h2]
      · rw [Real.cos_neg, Real.cos_pi_div_two, h2.1]
        ring
      · rw [Real.sin_neg, Real.sin_pi_div_two, h2.1]
        simp [Real.sqrt_sq_eq_abs, abs_of_neg h2.2]
    · by_cases h3 : dx < 0
      · have hdx0 : dx ≠ 0 := ne_of_lt h3
        have hsq : dx ^ 2 + dy ^ 2 = dx ^ 2 * (1 + (dy / dx) ^ 2) := by
          field_simp
        have hsqrt : Real.sqrt (dx ^ 2 + dy ^ 2) =
            -dx * Real.sqrt (1 + (dy / dx) ^ 2) := by
          rw [hsq, Real.sqrt_mul (sq_nonneg dx), Real.sqrt_sq_eq_abs, abs_of_neg h3]
        have hS : (0 : ℝ) < Real.sqrt (1 + (dy / dx) ^ 2) :=
          Real.sqrt_pos.mpr (by positivity)
        refine ⟨Real.arctan (dy / dx) + Real.pi, ?_, ?_, ?_⟩
        · simp only [getDisplacementAndAngle, ← hdx, ← hdy]
          rw [if_neg h1, if_neg h2, if_pos h3]
        · rw [hsqrt, Real.cos_add, Real.cos_pi, Real.sin_pi, Real.cos_arctan]
          field_simp
          ring
        · rw [hsqrt, Real.sin_add, Real.cos_pi, Real.sin_pi, Real.sin_arctan]
          field_simp
      · have hdx0 : dx ≠ 0 := by
          intro h0
          rcases lt_trichotomy dy 0 with hy | hy | hy
          · exact h2 ⟨h0, hy⟩
          · exact hne ⟨h0, hy⟩
          · exact h1 ⟨h0, hy⟩
        have h4 : 0 < dx := lt_of_le_of_ne (not_lt.mp h3) (Ne.symm hdx0)
        have hsq : dx ^ 2 + dy ^ 2 = dx ^ 2 * (1 + (dy / dx) ^ 2) := by
          field_simp
        have hsqrt : Real.sqrt (dx ^ 2 + dy ^ 2) =
            dx * Real.sqrt (1 + (dy / dx) ^ 2) := by
          rw [hsq, Real.sqrt_mul (sq_nonneg dx), Real.sqrt_sq_eq_abs, abs_of_pos h4]
        have hS : (0 : ℝ) < Real.sqrt (1 + (dy / dx) ^ 2) :=
          Real.sqrt_pos.mpr (by positivity)
        refine ⟨Real.arctan (dy / dx), ?_, ?_, ?_⟩
        · simp only [getDisplacementAndAngle, ← hdx, ← hdy]
          rw [if_neg h1, if_neg h2, if_neg h3, if_neg hdx0]
        · rw [hsqrt, Real.cos_arctan]
          field_simp
        · rw [hsqrt, Real.sin_arctan]
          field_simp

/-- A bend with nonzero turn angle always succeeds (the code validates
nothing else). -/
lemma addCPWAngBend_ok (width gap radius angle : ℝ) (start : Point)
    (startAngleRad : ℝ) (h : angle ≠ 0) :
    ∃ c st2, addCPWAngBend width gap radius angle start startAngleRad = .ok (c, st2) := by
  by_cases hp : 0 < angle
  · exact ⟨_, _, by unfold addCPWAngBend; rw [if_pos hp]⟩
  · have hn : angle < 0 := (not_lt.mp hp).lt_of_ne h
    exact ⟨_, _, by unfold addCPWAngBend; rw [if_neg hp, if_pos hn]⟩

/-- A polar-form straight segment with nonzero length always succeeds:
its end point differs from its start point. -/
lemma addCPWStraightLenAng_ok (width gap length : ℝ) (start : Point)
    (angleRad : ℝ) (h : length ≠ 0) :
    ∃ c st2, addCPWStraightLenAng width gap length start angleRad = .ok (c, st2) := by
  have hne : start ≠
      (start.1 + length * Real.cos angleRad, start.2 + length * Real.sin angleRad) := by
    intro he
    have hfst := congrArg Prod.fst he
    have hsnd := congrArg Prod.snd he
    simp at hfst hsnd
    rcases hfst with hL | hc
    · exact h hL
    · rcases hsnd with hL | hs
      · exact h hL
      · have hone := Real.sin_sq_add_cos_sq angleRad
        rw [hs, hc] at hone
        norm_num at hone
  obtain ⟨θ, hok, -, -⟩ := getDisplacementAndAngle_ok_spec start _ hne
  unfold addCPWStraightLenAng addCPWStraightSrtEnd
  rw [hok]
  exact ⟨_, _, rfl⟩

/-- The `while` loop exits immediately when its condition fails. -/
lemma meanderLoop_exit (fuel : Nat) (width gap lengthTotal radius straightLength
    turn lengthSoFar : ℝ) (st : PenState)
    (hcond : ¬(lengthTotal - (radius * Real.pi + straightLength) > lengthSoFar)) :
    meanderLoop (fuel + 1) width gap lengthTotal radius straightLength turn
      lengthSoFar st = .ok ([], st, turn, lengthSoFar) := by
  simp only [meanderLoop]
  rw [if_neg hcond]

/-- When the requested total length is below the length consumed by the
mandatory initial bend, `CPWMeander` performs no validation: the first
bend succeeds, the `while` loop body never runs, and the tail emits a
straight segment of (negative) length `lengthTotal - lengthSoFar`, so the
call returns normally. -/
lemma CPWMeander_short_ok (width gap lengthTotal radius straightLength
    startPhaseRad : ℝ) (start : Point) (startAngleRad : ℝ) (st : PenState)
    (hr : 0 < radius) (hsl : 0 < straightLength)
    (hL : lengthTotal < initialBendLength radius startPhaseRad) :
    ∃ out, CPWMeander width gap lengthTotal radius straightLength startPhaseRad
      start startAngleRad st = .ok out := by
  have hpi : (0 : ℝ) < Real.pi := Real.pi_pos
  unfold initialBendLength at hL
  by_cases hP0 : pymod startPhaseRad (2 * Real.pi) = 0
  · rw [if_pos hP0] at hL
    obtain ⟨c0, st1, hbend⟩ :=
      addCPWAngBend_ok width gap radius (-180) st.prevEnd st.prevAngleRad (by norm_num)
    have hexit : ¬(lengthTotal - (radius * Real.pi + straightLength) >
        radius * Real.pi) := by nlinarith
    have hloop := meanderLoop_exit
      (⌈(lengthTotal - (radius * Real.pi + straightLength) - radius * Real.pi) /
          (straightLength + radius * Real.pi)⌉₊)
      width gap lengthTotal radius straightLength 1 (radius * Real.pi) st1 hexit
    have htail : lengthTotal - radius * Real.pi < straightLength := by nlinarith
    obtain ⟨c2, st3, hstraight⟩ := addCPWStraightLenAng_ok width gap
      (lengthTotal - radius * Real.pi) st1.prevEnd st1.prevAngleRad (by nlinarith)
    refine ⟨(c0 ++ [] ++ c2, st3), ?_⟩
    simp [CPWMeander, hP0, hbend, hloop, hstraight, htail]
  · rw [if_neg hP0] at hL
    by_cases hPpi : pymod startPhaseRad (2 * Real.pi) = Real.pi
    · rw [if_pos hPpi] at hL
      obtain ⟨c0, st1, hbend⟩ :=
        addCPWAngBend_ok width gap radius 180 st.prevEnd st.prevAngleRad (by norm_num)
      have hexit : ¬(lengthTotal - (radius * Real.pi + straightLength) >
          radius * Real.pi) := by nlinarith
      have hloop := meanderLoop_exit
        (⌈(lengthTotal - (radius * Real.pi + straightLength) - radius * Real.pi) /
            (straightLength + radius * Real.pi)⌉₊)
        width gap lengthTotal radius straightLength (-1) (radius * Real.pi) st1 hexit
      have htail : lengthTotal - radius * Real.pi < straightLength := by nlinarith
      obtain ⟨c2, st3, hstraight⟩ := addCPWStraightLenAng_ok width gap
        (lengthTotal - radius * Real.pi) st1.prevEnd st1.prevAngleRad (by nlinarith)
      refine ⟨(c0 ++ [] ++ c2, st3), ?_⟩
      simp [CPWMeander, hP0, hPpi, Real.pi_ne_zero, hbend, hloop, hstraight, htail]
    · have hang : 180 * (pymod startPhaseRad (2 * Real.pi) - Real.pi) / Real.pi ≠ 0 := by
        intro h0
        apply hPpi
        field_simp at h0
        linarith
      rw [if_neg hPpi] at hL
      obtain ⟨c0, st1, hbend⟩ := addCPWAngBend_ok width gap radius
        (180 * (pymod startPhaseRad (2 * Real.pi) - Real.pi) / Real.pi)
        st.prevEnd st.prevAngleRad hang
      have habs : (0 : ℝ) ≤ |radius * (pymod startPhaseRad (2 * Real.pi) - Real.pi)| :=
        abs_nonneg _
      have hexit : ¬(lengthTotal - (radius * Real.pi + straightLength) >
          |radius * (pymod startPhaseRad (2 * Real.pi) - Real.pi)|) := by nlinarith
      have hloop := meanderLoop_exit
        (⌈(lengthTotal - (radius * Real.pi + straightLength) -
              |radius * (pymod startPhaseRad (2 * Real.pi) - Real.pi)|) /
            (straightLength + radius * Real.pi)⌉₊)
        width gap lengthTotal radius straightLength
        (if pymod startPhaseRad (2 * Real.pi) < Real.pi ∧
            0 < pymod startPhaseRad (2 * Real.pi) then (1 : ℝ) else -1)
        (|radius * (pymod startPhaseRad (2 * Real.pi) - Real.pi)|) st1 hexit
      have htail : lengthTotal -
          |radius * (pymod startPhaseRad (2 * Real.pi) - Real.pi)| < straightLength := by
        nlinarith
      obtain ⟨c2, st3, hstraight⟩ := addCPWStraightLenAng_ok width gap
        (lengthTotal - |radius * (pymod startPhaseRad (2 * Real.pi) - Real.pi)|)
        st1.prevEnd st1.prevAngleRad (by nlinarith)
      refine ⟨(c0 ++ [] ++ c2, st3), ?_⟩
      simp [CPWMeander, hP0, hPpi, hbend, hloop, hstraight, htail]

/-- Reflecting a world-frame point across the heading line equals flipping
its local-frame `y` coordinate about the pivot before rotating. -/
lemma reflect_rotatePoint (s : Point) (α x y : ℝ) :
    reflectAcross s α (rotatePoint α x y s) = rotatePoint α x (2 * s.2 - y) s := by
  unfold reflectAcross rotatePoint
  rw [Real.sin_two_mul, Real.cos_two_mul]
  refine Prod.ext ?_ ?_ <;> dsimp only <;>
    [linear_combination (2 * Real.cos α * (x - s.1)) * Real.sin_sq_add_cos_sq α;
     linear_combination (-(2 * Real.cos α) * (y - s.2)) * Real.sin_sq_add_cos_sq α]

/-- `reflectAcross s α` is an involution. -/
lemma reflectAcross_involutive (s : Point) (α : ℝ) (p : Point) :
    reflectAcross s α (reflectAcross s α p) = p := by
  unfold reflectAcross
  refine Prod.ext ?_ ?_ <;> dsimp only <;>
    [linear_combination (p.1 - s.1) * Real.sin_sq_add_cos_sq (2 * α);
     linear_combination (p.2 - s.2) * Real.sin_sq_add_cos_sq (2 * α)]

/-- Membership in the reflected image, via involutivity. -/
lemma mem_image_reflect (s : Point) (α : ℝ) (S : Set Point) (p : Point) :
    p ∈ Set.image (reflectAcross s α) S ↔ reflectAcross s α p ∈ S := by
  constructor
  · rintro ⟨q, hq, rfl⟩
    rwa [reflectAcross_involutive]
  · intro hp
    exact ⟨reflectAcross s α p, hp, reflectAcross_involutive s α p⟩

/-- A segment is direction-symmetric as a point set. -/
lemma segSet_comm (a b : Point) : segSet a b = segSet b a := by
  ext p
  constructor <;> rintro ⟨t, h0, h1, rfl⟩ <;>
    exact ⟨1 - t, by linarith, by linarith, by
      refine Prod.ext ?_ ?_ <;> dsimp only <;> ring⟩

/-- The right endpoint lies on the segment. -/
lemma right_mem_segSet (a b : Point) : b ∈ segSet a b :=
  ⟨1, by norm_num, by norm_num, by refine Prod.ext ?_ ?_ <;> dsimp only <;> ring⟩

/-- A degenerate segment is its endpoint. -/
lemma eq_of_mem_segSet_self (a p : Point) (h : p ∈ segSet a a) : p = a := by
  obtain ⟨t, -, -, rfl⟩ := h
  refine Prod.ext ?_ ?_ <;> dsimp only <;> ring

/-- Reflection maps segments to segments (one direction). -/
lemma reflect_mem_segSet_of_mem (s : Point) (α : ℝ) (a b p : Point)
    (h : p ∈ segSet a b) :
    reflectAcross s α p ∈ segSet (reflectAcross s α a) (reflectAcross s α b) := by
  obtain ⟨t, h0, h1, rfl⟩ := h
  refine ⟨t, h0, h1, ?_⟩
  unfold reflectAcross
  refine Prod.ext ?_ ?_ <;> dsimp only <;> ring

/-- A reflected point lies on a segment exactly when the point lies on the
reflected segment. -/
lemma reflect_mem_segSet (s : Point) (α : ℝ) (a b p : Point) :
    reflectAcross s α p ∈ segSet a b ↔
      p ∈ segSet (reflectAcross s α a) (reflectAcross s α b) := by
  constructor
  · intro h
    have h2 := reflect_mem_segSet_of_mem s α a b _ h
    rwa [reflectAcross_involutive] at h2
  · intro h
    have h2 := reflect_mem_segSet_of_mem s α _ _ _ h
    rwa [reflectAcross_involutive, reflectAcross_involutive] at h2

/-- Rotation of equal local coordinates gives equal world points. -/
lemma rotatePoint_congr (theta : ℝ) {x y x' y' : ℝ} (s : Point)
    (hx : x = x') (hy : y = y') :
    rotatePoint theta x y s = rotatePoint theta x' y' s := by
  rw [hx, hy]

/-! ### Claim theorems -/

/-- C10: for fixed cross-section, length, radius, straight-segment length
and start phase, `CPWMeander` emits the same command sequence and leaves
the same pen state for any two values of its `start` and `startAngleRad`
arguments: its output depends only on the tracked pen state. -/
theorem CPWMeander_ignores_explicit_start_pose
    (width gap lengthTotal radius straightLength startPhaseRad : ℝ)
    (s1 s2 : Point) (a1 a2 : ℝ) (st : PenState) :
    CPWMeander width gap lengthTotal radius straightLength startPhaseRad s1 a1 st =
      CPWMeander width gap lengthTotal radius straightLength startPhaseRad s2 a2 st := rfl

/-- C7 counterexample: at turn angle `0` the bend call fails with the
Python `UnboundLocalError`, which is not the spec's `DegenerateBend`
domain error (the code never defines or raises any domain error). -/
theorem bend_zero_angle_not_degenerateBend :
    addCPWAngBend 1 1 1 0 ((0 : ℝ), (0 : ℝ)) 0 = .error .unboundLocalError ∧
      Err.unboundLocalError ≠ Err.degenerateBend := by
  constructor
  · unfold addCPWAngBend
    norm_num
  · decide

/-- C7 amended: for every width, gap, radius and start pose, calling
`addCPWAngBend` with turn angle `0` fails — with an `UnboundLocalError`
(reading the never-assigned endpoint locals), not with a checked
`DegenerateBend` domain error — and emits no drawing commands for that
shape. -/
theorem bend_zero_angle_fails (width gap radius : ℝ) (start : Point)
    (startAngleRad : ℝ) :
    addCPWAngBend width gap radius 0 start startAngleRad =
      .error .unboundLocalError := by
  unfold addCPWAngBend
  norm_num

/-- C8 counterexample: a zero-length straight segment fails with the
Python `ZeroDivisionError` raised by `dy/dx`, which is not the spec's
`DegenerateSegment` domain error. -/
theorem straight_zero_length_not_degenerateSegment :
    addCPWStraightSrtEnd 1 1 ((0 : ℝ), (0 : ℝ)) ((0 : ℝ), (0 : ℝ)) =
        .error .zeroDivisionError ∧
      Err.zeroDivisionError ≠ Err.degenerateSegment := by
  constructor
  · unfold addCPWStraightSrtEnd getDisplacementAndAngle
    norm_num
  · decide

/-- C8 amended: for every width and gap, the straight-segment operation
with start equal to end fails — with the `ZeroDivisionError` raised by the
angle computation, not with a checked `DegenerateSegment` domain error —
and emits no drawing commands for that shape. -/
theorem straight_zero_length_fails (width gap : ℝ) (p : Point) :
    addCPWStraightSrtEnd width gap p p = .error .zeroDivisionError := by
  unfold addCPWStraightSrtEnd getDisplacementAndAngle
  norm_num

/-- C2: the angle returned for `start = (0,0)`, `end = (-1,-1)` is
`arctan 1 + π = 5π/4`, which is greater than `π` and hence neither equal
to `atan2(-1,-1) = -3π/4` nor inside `(-π, π]`: the code's naive
`atan(dy/dx)` quadrant resolution contradicts the documented `atan2`
contract for `dx < 0, dy < 0`.  (The `dx = 0` branches do follow the
contract: `(0,0) → (0,-5)` returns distance `5` and angle `-π/2`.) -/
theorem getDisplacementAndAngle_third_quadrant_bug :
    getDisplacementAndAngle ((0 : ℝ), (0 : ℝ)) ((-1 : ℝ), (-1 : ℝ)) =
        .ok (Real.sqrt 2, Real.arctan 1 + Real.pi) ∧
      Real.pi < Real.arctan 1 + Real.pi ∧
      getDisplacementAndAngle ((0 : ℝ), (0 : ℝ)) ((0 : ℝ), (-5 : ℝ)) =
        .ok (5, -(Real.pi / 2)) := by
  refine ⟨?_, ?_, ?_⟩
  · unfold getDisplacementAndAngle
    norm_num
  · have h : Real.arctan 1 = Real.pi / 4 := Real.arctan_one
    have := Real.pi_pos
    linarith
  · have h25 : Real.sqrt (25 : ℝ) = 5 := by
      rw [show (25 : ℝ) = 5 ^ 2 by norm_num]
      exact Real.sqrt_sq (by norm_num)
    unfold getDisplacementAndAngle
    norm_num [h25]

/-- C4: `addCPWStraightSrtEnd(width=24, gap=24, start=(0,0), end=(100,0))`
emits exactly the two closed 4-vertex polygons
`(0,-12),(100,-12),(100,-36),(0,-36)` and `(0,12),(100,12),(100,36),(0,36)`
and leaves the pen state at `(100, 0)` with heading `0`. -/
theorem straight_concrete_scenario :
    addCPWStraightSrtEnd 24 24 ((0 : ℝ), (0 : ℝ)) ((100 : ℝ), (0 : ℝ)) =
      .ok ([Cmd.pline [((0 : ℝ), (-12 : ℝ)), ((100 : ℝ), (-12 : ℝ)),
              ((100 : ℝ), (-36 : ℝ)), ((0 : ℝ), (-36 : ℝ))],
            Cmd.pline [((0 : ℝ), (12 : ℝ)), ((100 : ℝ), (12 : ℝ)),
              ((100 : ℝ), (36 : ℝ)), ((0 : ℝ), (36 : ℝ))]],
        ⟨((100 : ℝ), (0 : ℝ)), 0⟩) := by
  have hs : Real.sqrt (10000 : ℝ) = 100 := by
    rw [show (10000 : ℝ) = 100 ^ 2 by norm_num]
    exact Real.sqrt_sq (by norm_num)
  unfold addCPWStraightSrtEnd getDisplacementAndAngle rotatePoint
  norm_num [Real.arctan_zero, Real.cos_zero, Real.sin_zero, hs]

/-- C1: for `0 < θ < 180`, the outline emitted by `addCPWAngBend` with
turn angle `-θ` is the mirror image, across the line through the start
pose along its heading, of the outline emitted with `+θ`: the arc
primitives correspond one-to-one under reflection (with swept orientation
reversed, i.e. endpoints swapped), and the straight connector strokes
cover exactly the reflected point set (the negative helper additionally
writes one zero-length stroke per side, which adds no points). -/
theorem bend_mirror_symmetry (width gap radius θ : ℝ) (start : Point) (α : ℝ)
    (h0 : 0 < θ) (h180 : θ < 180) :
    arcsOf (cmdsAfter (addCPWAngBend width gap radius (-θ) start α)) =
      (arcsOf (cmdsAfter (addCPWAngBend width gap radius θ start α))).map
        (mirrorArc start α) ∧
    lineSegPts (cmdsAfter (addCPWAngBend width gap radius (-θ) start α)) =
      Set.image (reflectAcross start α)
        (lineSegPts (cmdsAfter (addCPWAngBend width gap radius θ start α))) := by
  have hnp : ¬(0 < -θ) := by linarith
  have hn : -θ < 0 := by linarith
  have hneg_cmds : cmdsAfter (addCPWAngBend width gap radius (-θ) start α) =
      CPWAngBendHelperNegative (start.1, start.2 - radius) start radius width gap
        (Real.pi * -θ / 180) α := by
    simp only [addCPWAngBend, cmdsAfter]
    rw [if_neg hnp, if_pos hn]
  have hpos_cmds : cmdsAfter (addCPWAngBend width gap radius θ start α) =
      CPWAngBendHelperPositive (start.1, start.2 + radius) start radius width gap
        (Real.pi * θ / 180) α := by
    simp only [addCPWAngBend, cmdsAfter]
    rw [if_pos h0]
  rw [hneg_cmds, hpos_cmds]
  constructor
  · simp only [CPWAngBendHelperNegative, CPWAngBendHelperPositive, negIter, posIter,
      arcsOf, List.filterMap_append, List.filterMap_cons, List.filterMap_nil,
      List.map_append, List.map_cons, List.map_nil, mirrorArc, reflect_rotatePoint,
      one_mul, neg_one_mul, mul_neg, neg_neg, neg_div, Real.sin_neg, Real.cos_neg,
      List.cons_append, List.nil_append, List.append_nil, List.cons.injEq,
      Prod.mk.injEq, and_true]
    repeat' apply And.intro
    all_goals exact rotatePoint_congr _ _ (by ring) (by ring)
  · ext p
    rw [mem_image_reflect]
    simp only [CPWAngBendHelperNegative, CPWAngBendHelperPositive, negIter, posIter,
      lineSegPts, Set.mem_setOf_eq, cmdSegs, consecPairs,
      List.flatMap_cons, List.flatMap_nil, List.flatMap_append,
      List.cons_append, List.nil_append, List.append_nil,
      List.mem_cons, List.not_mem_nil, or_false, exists_eq_or_imp, exists_eq_left,
      reflect_mem_segSet, reflect_rotatePoint,
      one_mul, neg_one_mul, mul_neg, neg_neg, neg_div, Real.sin_neg, Real.cos_neg]
    ring_nf
    constructor
    · rintro (h | h | h | h | h | h)
      · exact Or.inr (Or.inl h)
      · have hp := eq_of_mem_segSet_self _ _ h
        exact Or.inl (by rw [hp]; exact right_mem_segSet _ _)
      · rw [segSet_comm] at h
        exact Or.inl h
      · exact Or.inr (Or.inr (Or.inr h))
      · have hp := eq_of_mem_segSet_self _ _ h
        exact Or.inr (Or.inr (Or.inl (by rw [hp]; exact right_mem_segSet _ _)))
      · rw [segSet_comm] at h
        exact Or.inr (Or.inr (Or.inl h))
    · rintro (h | h | h | h)
      · rw [segSet_comm] at h
        exact Or.inr (Or.inr (Or.inl h))
      · exact Or.inl h
      · rw [segSet_comm] at h
        exact Or.inr (Or.inr (Or.inr (Or.inr (Or.inr h))))
      · exact Or.inr (Or.inr (Or.inr (Or.inl h)))

/-- C1 witness: mirror symmetry at a `90` degree bend with unit
parameters. -/
theorem bend_mirror_symmetry_witness :
    arcsOf (cmdsAfter (addCPWAngBend 1 1 1 (-90) ((0 : ℝ), (0 : ℝ)) 0)) =
      (arcsOf (cmdsAfter (addCPWAngBend 1 1 1 90 ((0 : ℝ), (0 : ℝ)) 0))).map
        (mirrorArc ((0 : ℝ), (0 : ℝ)) 0) ∧
    lineSegPts (cmdsAfter (addCPWAngBend 1 1 1 (-90) ((0 : ℝ), (0 : ℝ)) 0)) =
      Set.image (reflectAcross ((0 : ℝ), (0 : ℝ)) 0)
        (lineSegPts (cmdsAfter (addCPWAngBend 1 1 1 90 ((0 : ℝ), (0 : ℝ)) 0))) :=
  bend_mirror_symmetry 1 1 1 90 ((0 : ℝ), (0 : ℝ)) 0 (by norm_num) (by norm_num)

/-- C3: after every successful shape-emitting call the tracked pen state
equals the shape's geometric end point and exit tangent direction: for a
straight segment (and a ramp) it is the given end point together with an
angle whose direction is that of `start → stop`; for a bend it is the arc
end point (the start rotated about the bend center by the turn angle)
mapped into the world frame, with heading the start heading plus the turn
angle in radians. -/
theorem pen_state_tracks_geometry
    (width gap widthStart gapStart widthEnd gapEnd radius angle : ℝ)
    (start stop : Point) (startAngleRad : ℝ) :
    (start ≠ stop →
      ∃ θ, penAfter (addCPWStraightSrtEnd width gap start stop) = some ⟨stop, θ⟩ ∧
        Real.cos θ * Real.sqrt ((stop.1 - start.1) ^ 2 + (stop.2 - start.2) ^ 2) =
          stop.1 - start.1 ∧
        Real.sin θ * Real.sqrt ((stop.1 - start.1) ^ 2 + (stop.2 - start.2) ^ 2) =
          stop.2 - start.2) ∧
    (start ≠ stop →
      ∃ θ, penAfter (addCPWRamp widthStart gapStart widthEnd gapEnd start stop) =
          some ⟨stop, θ⟩ ∧
        Real.cos θ * Real.sqrt ((stop.1 - start.1) ^ 2 + (stop.2 - start.2) ^ 2) =
          stop.1 - start.1 ∧
        Real.sin θ * Real.sqrt ((stop.1 - start.1) ^ 2 + (stop.2 - start.2) ^ 2) =
          stop.2 - start.2) ∧
    (angle ≠ 0 →
      penAfter (addCPWAngBend width gap radius angle start startAngleRad) =
        some ⟨rotatePoint startAngleRad (specBendLocalEnd radius angle start).1
                (specBendLocalEnd radius angle start).2 start,
              startAngleRad + Real.pi * angle / 180⟩) := by
  refine ⟨?_, ?_, ?_⟩
  · intro h
    obtain ⟨θ, hok, hc, hs⟩ := getDisplacementAndAngle_ok_spec start stop h
    refine ⟨θ, ?_, hc, hs⟩
    unfold addCPWStraightSrtEnd penAfter
    rw [hok]
  · intro h
    obtain ⟨θ, hok, hc, hs⟩ := getDisplacementAndAngle_ok_spec start stop h
    refine ⟨θ, ?_, hc, hs⟩
    unfold addCPWRamp penAfter
    rw [hok]
  · intro h
    by_cases hpos : 0 < angle
    · have hend : specBendLocalEnd radius angle start =
          (start.1 + radius * Real.sin (Real.pi * angle / 180),
           start.2 + radius - radius * Real.cos (Real.pi * angle / 180)) := by
        unfold specBendLocalEnd specBendCenter rotatePoint
        rw [if_pos hpos]
        simp only [Prod.mk.injEq]
        constructor <;> ring
      rw [hend]
      unfold addCPWAngBend penAfter
      rw [if_pos hpos]
    · have hneg : angle < 0 := (not_lt.mp hpos).lt_of_ne h
      have hend : specBendLocalEnd radius angle start =
          (start.1 - radius * Real.sin (Real.pi * angle / 180),
           start.2 - radius + radius * Real.cos (Real.pi * angle / 180)) := by
        unfold specBendLocalEnd specBendCenter rotatePoint
        rw [if_neg hpos]
        simp only [Prod.mk.injEq]
        constructor <;> ring
      rw [hend]
      unfold addCPWAngBend penAfter
      rw [if_neg (by exact hpos), if_pos hneg]

/-- C3 witness: the pen-state characterization applied at concrete inputs
(straight and ramp from `(0,0)` to `(3,4)`, bend of `90` degrees). -/
theorem pen_state_tracks_geometry_witness :
    (∃ θ, penAfter (addCPWStraightSrtEnd 1 1 ((0 : ℝ), (0 : ℝ)) ((3 : ℝ), (4 : ℝ))) =
        some ⟨((3 : ℝ), (4 : ℝ)), θ⟩ ∧
      Real.cos θ * Real.sqrt (((3 : ℝ) - 0) ^ 2 + ((4 : ℝ) - 0) ^ 2) = (3 : ℝ) - 0 ∧
      Real.sin θ * Real.sqrt (((3 : ℝ) - 0) ^ 2 + ((4 : ℝ) - 0) ^ 2) = (4 : ℝ) - 0) ∧
    (∃ θ, penAfter (addCPWRamp 1 1 2 2 ((0 : ℝ), (0 : ℝ)) ((3 : ℝ), (4 : ℝ))) =
        some ⟨((3 : ℝ), (4 : ℝ)), θ⟩ ∧
      Real.cos θ * Real.sqrt (((3 : ℝ) - 0) ^ 2 + ((4 : ℝ) - 0) ^ 2) = (3 : ℝ) - 0 ∧
      Real.sin θ * Real.sqrt (((3 : ℝ) - 0) ^ 2 + ((4 : ℝ) - 0) ^ 2) = (4 : ℝ) - 0) ∧
    penAfter (addCPWAngBend 1 1 1 90 ((0 : ℝ), (0 : ℝ)) 0) =
      some ⟨rotatePoint 0 (specBendLocalEnd 1 90 ((0 : ℝ), (0 : ℝ))).1
              (specBendLocalEnd 1 90 ((0 : ℝ), (0 : ℝ))).2 ((0 : ℝ), (0 : ℝ)),
            0 + Real.pi * 90 / 180⟩ :=
  ⟨(pen_state_tracks_geometry 1 1 1 1 2 2 1 90 ((0 : ℝ), (0 : ℝ)) ((3 : ℝ), (4 : ℝ)) 0).1
      (by norm_num [Prod.ext_iff]),
   (pen_state_tracks_geometry 1 1 1 1 2 2 1 90 ((0 : ℝ), (0 : ℝ)) ((3 : ℝ), (4 : ℝ)) 0).2.1
      (by norm_num [Prod.ext_iff]),
   (pen_state_tracks_geometry 1 1 1 1 2 2 1 90 ((0 : ℝ), (0 : ℝ)) ((3 : ℝ), (4 : ℝ)) 0).2.2
      (by norm_num)⟩

/-- C5 counterexample: chaining a `+90` degree bend and a `-45` degree
bend does not leave the pen state of a single `+45` degree bend — with
opposite signs the two arcs lie on different circles, so the exit
positions differ (the headings agree). -/
theorem bend_mixed_sign_not_additive :
    penAfter (bendThenBend 1 1 1 90 (-45) ((0 : ℝ), (0 : ℝ)) 0) ≠
      penAfter (addCPWAngBend 1 1 1 45 ((0 : ℝ), (0 : ℝ)) 0) := by
  have h90 : Real.pi * 90 / 180 = Real.pi / 2 := by ring
  have h45 : Real.pi * (-45) / 180 = -(Real.pi / 4) := by ring
  have h45p : Real.pi * 45 / 180 = Real.pi / 4 := by ring
  intro heq
  simp only [bendThenBend, addCPWAngBend, penAfter, h90, h45, h45p] at heq
  norm_num [rotatePoint, Real.sin_pi_div_two, Real.cos_pi_div_two,
    Real.sin_pi_div_four, Real.cos_pi_div_four, Real.sin_neg, Real.cos_neg,
    Real.sin_zero, Real.cos_zero, PenState.ext_iff, Prod.ext_iff] at heq
  obtain ⟨⟨hx, -⟩, -⟩ := heq
  nlinarith [Real.sq_sqrt (by norm_num : (0 : ℝ) ≤ 2), Real.sqrt_nonneg 2]

/-- C5 amended: bend additivity holds for same-sign turns: for `θ1, θ2`
both positive or both negative (with `θ1 + θ2` inside `(-180°, 180°)`, so
that the single bend is legal), chaining `addCPWAngBend θ1` then
`addCPWAngBend θ2` from the resulting pen state leaves exactly the pen
state of a single `addCPWAngBend (θ1 + θ2)`. -/
theorem bend_same_sign_additive (width gap radius a1 a2 : ℝ) (start : Point)
    (startAngleRad : ℝ)
    (hsign : (0 < a1 ∧ 0 < a2) ∨ (a1 < 0 ∧ a2 < 0))
    (hlo : -180 < a1 + a2) (hhi : a1 + a2 < 180) :
    penAfter (bendThenBend width gap radius a1 a2 start startAngleRad) =
      penAfter (addCPWAngBend width gap radius (a1 + a2) start startAngleRad) := by
  have hsplit : Real.pi * (a1 + a2) / 180 =
      Real.pi * a1 / 180 + Real.pi * a2 / 180 := by ring
  rcases hsign with ⟨h1, h2⟩ | ⟨h1, h2⟩
  · have h12 : 0 < a1 + a2 := by linarith
    simp only [bendThenBend, addCPWAngBend, penAfter, if_pos h1, if_pos h2,
      if_pos h12, hsplit]
    simp only [Option.some.injEq, PenState.mk.injEq, Prod.ext_iff]
    refine ⟨⟨?_, ?_⟩, by ring⟩ <;>
      simp only [rotatePoint, Real.cos_add, Real.sin_add] <;> ring
  · have h12 : a1 + a2 < 0 := by linarith
    have h1n : ¬(0 < a1) := not_lt.mpr h1.le
    have h2n : ¬(0 < a2) := not_lt.mpr h2.le
    have h12n : ¬(0 < a1 + a2) := not_lt.mpr h12.le
    simp only [bendThenBend, addCPWAngBend, penAfter, if_neg h1n, if_neg h2n,
      if_neg h12n, if_pos h1, if_pos h2, if_pos h12, hsplit]
    simp only [Option.some.injEq, PenState.mk.injEq, Prod.ext_iff]
    refine ⟨⟨?_, ?_⟩, by ring⟩ <;>
      simp only [rotatePoint, Real.cos_add, Real.sin_add] <;> ring

/-- C5 witness: same-sign additivity at `θ1 = θ2 = 45` degrees. -/
theorem bend_same_sign_additive_witness :
    penAfter (bendThenBend 1 1 1 45 45 ((0 : ℝ), (0 : ℝ)) 0) =
      penAfter (addCPWAngBend 1 1 1 (45 + 45) ((0 : ℝ), (0 : ℝ)) 0) :=
  bend_same_sign_additive 1 1 1 45 45 ((0 : ℝ), (0 : ℝ)) 0
    (Or.inl ⟨by norm_num, by norm_num⟩) (by norm_num) (by norm_num)

/-- C9 counterexample: with `radius = straightLength = 1` and requested
total length `1 < π` (the length consumed by the mandatory initial bend at
start phase `0`), `CPWMeander` does not fail with `InvalidMeanderLength`:
it returns normally. -/
theorem meander_short_length_no_invalid_error :
    CPWMeander 1 1 1 1 1 0 ((0 : ℝ), (0 : ℝ)) 0 ⟨((0 : ℝ), (0 : ℝ)), 0⟩ ≠
      Except.error Err.invalidMeanderLength := by
  obtain ⟨out, hok⟩ := CPWMeander_short_ok 1 1 1 1 1 0 ((0 : ℝ), (0 : ℝ)) 0
    ⟨((0 : ℝ), (0 : ℝ)), 0⟩ (by norm_num) (by norm_num)
    (by
      simp [initialBendLength, pymod]
      nlinarith [Real.pi_gt_three])
  rw [hok]
  simp

/-- C9 amended: `CPWMeander` performs no validation of the requested total
length.  When it is less than the length consumed by the mandatory initial
bend (for positive radius and straight-segment length), the call does not
fail with `InvalidMeanderLength`: the loop body never runs and the tail
consumes the (negative) remainder with a backwards straight segment, so
the call returns normally. -/
theorem meander_short_length_returns_ok
    (width gap lengthTotal radius straightLength startPhaseRad : ℝ)
    (start : Point) (startAngleRad : ℝ) (st : PenState)
    (hr : 0 < radius) (hsl : 0 < straightLength)
    (hL : lengthTotal < initialBendLength radius startPhaseRad) :
    ∃ out, CPWMeander width gap lengthTotal radius straightLength startPhaseRad
      start startAngleRad st = .ok out :=
  CPWMeander_short_ok width gap lengthTotal radius straightLength startPhaseRad
    start startAngleRad st hr hsl hL

/-- C9 witness: the no-validation behavior at the counterexample input. -/
theorem meander_short_length_returns_ok_witness :
    ∃ out, CPWMeander 1 1 1 1 1 0 ((0 : ℝ), (0 : ℝ)) 0 ⟨((0 : ℝ), (0 : ℝ)), 0⟩ =
      .ok out :=
  meander_short_length_returns_ok 1 1 1 1 1 0 ((0 : ℝ), (0 : ℝ)) 0
    ⟨((0 : ℝ), (0 : ℝ)), 0⟩ (by norm_num) (by norm_num)
    (by
      simp [initialBendLength, pymod]
      nlinarith [Real.pi_gt_three])

/-- C6: an `addCPWRamp` whose start and end cross-sections agree emits
exactly the polygons of `addCPWStraightSrtEnd` with that cross-section and
leaves the same pen state. -/
theorem ramp_degenerate_eq_straight (width gap : ℝ) (start stop : Point)
    (h : start ≠ stop) :
    addCPWRamp width gap width gap start stop =
      addCPWStraightSrtEnd width gap start stop := rfl

/-- C6 witness: the ramp/straight coincidence at a concrete input. -/
theorem ramp_degenerate_eq_straight_witness :
    addCPWRamp 1 1 1 1 ((0 : ℝ), (0 : ℝ)) ((1 : ℝ), (0 : ℝ)) =
      addCPWStraightSrtEnd 1 1 ((0 : ℝ), (0 : ℝ)) ((1 : ℝ), (0 : ℝ)) :=
  ramp_degenerate_eq_straight 1 1 _ _ (by norm_num [Prod.ext_iff])

end AutoScripter

end
